import Mathlib

/-!
Verification of the task-board backend (Express + MySQL) against its
design specification.  The handlers in backend/routes (auth, tasks, users,
comments routers) and backend/middleware/auth.js are shallowly embedded as
pure Lean functions over an explicit relational store.  Timestamps are
epoch milliseconds (Int); JS strings are Lean String, with the JS string
operations the handlers use (trim, split on a space) re-implemented
structurally over the underlying character list so that they evaluate.
-/

namespace TaskBoard

/-- Characters removed by the JS String.prototype.trim sanitizer
(modelled with the standard whitespace predicate). -/
def trimChars (s : List Char) : List Char :=
  ((s.dropWhile Char.isWhitespace).reverse.dropWhile Char.isWhitespace).reverse

/-- JS value.trim(), as applied by the express-validator trim() sanitizer. -/
def jsTrim (s : String) : String := String.mk (trimChars s.data)

/-- Splitting on a single space character, keeping empty parts,
as JS str.split(' ') does. -/
def splitSpaceAux : List Char → List Char → List (List Char)
  | acc, [] => [acc.reverse]
  | acc, c :: cs =>
    if c = ' ' then acc.reverse :: splitSpaceAux [] cs
    else splitSpaceAux (c :: acc) cs

/-- JS str.split(' '). -/
def jsSplitSpace (s : String) : List String :=
  (splitSpaceAux [] s.data).map String.mk

/-- A row of the users table (schema in the project README SQL). -/
structure User where
  id : Nat
  email : String
  name : String
  password_hash : String
deriving Repr, DecidableEq

/-- A row of the tasks table.  due_date is epoch milliseconds when set.
The table has no badge column: the badge is derived at read time. -/
structure Task where
  id : Nat
  title : String
  description : Option String
  priority : String
  status : String
  assignee_id : Option Nat
  due_date : Option Int
  created_at : Int
  updated_at : Int
deriving Repr, DecidableEq

/-- A row of the comments table. -/
structure Comment where
  id : Nat
  task_id : Nat
  author_id : Nat
  body : String
  created_at : Int
deriving Repr, DecidableEq

/-- The relational store the handlers read and write. -/
structure DB where
  users : List User
  tasks : List Task
  comments : List Comment
deriving Repr, DecidableEq

/-- Badge helper of the tasks router (getTaskBadge, routes/tasks.js).
The JS computes timeDiff = due.getTime() - now.getTime() in milliseconds and
hoursDiff = timeDiff / (1000 * 3600); the division is modelled exactly over
the rationals.  A null or undefined dueDate is the none case; the
status check is the guard clause status === 'Done'. -/
def getTaskBadge (now : Int) (dueDate : Option Int) (status : String) : String :=
  match dueDate with
  | none => "On Track"
  | some due =>
    if status = "Done" then "On Track"
    else
      if ((due - now : Int) : ℚ) / (1000 * 3600) < 0 then "Overdue"
      else if ((due - now : Int) : ℚ) / (1000 * 3600) ≤ 24 then "At Risk"
      else "On Track"

/-- The textual duplicate of getTaskBadge declared inside the
GET /api/users/me/tasks handler (routes/users.js), embedded separately so
that the two copies can be compared. -/
def getTaskBadgeMe (now : Int) (dueDate : Option Int) (status : String) : String :=
  match dueDate with
  | none => "On Track"
  | some due =>
    if status = "Done" then "On Track"
    else
      if ((due - now : Int) : ℚ) / (1000 * 3600) < 0 then "Overdue"
      else if ((due - now : Int) : ℚ) / (1000 * 3600) ≤ 24 then "At Risk"
      else "On Track"

/-- HTTP outcome of a handler: res.status(code).json(payload) on success,
or res.status(code).json with a message on the error paths. -/
inductive Resp (α : Type) where
  | ok (code : Nat) (payload : α)
  | err (code : Nat) (message : String)
deriving Repr, DecidableEq

/-- SELECT ... FROM users WHERE id = ? (first matching row). -/
def findUser (db : DB) (uid : Nat) : Option User :=
  db.users.find? (fun u => u.id == uid)

/-- SELECT ... FROM tasks WHERE id = ? (first matching row). -/
def findTask (db : DB) (tid : Nat) : Option Task :=
  db.tasks.find? (fun t => t.id == tid)

/-- SELECT ... FROM comments WHERE id = ? (first matching row). -/
def findComment (db : DB) (cid : Nat) : Option Comment :=
  db.comments.find? (fun c => c.id == cid)

/-- assignee_name from LEFT JOIN users u ON t.assignee_id = u.id:
null when the task has no assignee or the joined row is missing. -/
def joinedAssigneeName (db : DB) (t : Task) : Option String :=
  t.assignee_id.bind (fun a => (findUser db a).map (fun u => u.name))

/-- assignee_email from the same LEFT JOIN. -/
def joinedAssigneeEmail (db : DB) (t : Task) : Option String :=
  t.assignee_id.bind (fun a => (findUser db a).map (fun u => u.email))

/-- The assignee object the task handlers attach to a response row. -/
structure AssigneeInfo where
  id : Nat
  name : Option String
  email : Option String
deriving Repr, DecidableEq

/-- A task row as returned to the client: the selected columns spread into
the payload, plus the derived badge and the shaped assignee object. -/
structure ShapedTask where
  id : Nat
  title : String
  description : Option String
  priority : String
  status : String
  due_date : Option Int
  created_at : Int
  updated_at : Int
  assignee_id : Option Nat
  badge : String
  assignee : Option AssigneeInfo
deriving Repr, DecidableEq

/-- Response shaping shared by the tasks-router handlers:
badge := getTaskBadge(task.due_date, task.status) and
assignee := task.assignee_id then an object of id, name, email, else null. -/
def shapeTask (now : Int) (db : DB) (t : Task) : ShapedTask :=
  { id := t.id, title := t.title, description := t.description,
    priority := t.priority, status := t.status, due_date := t.due_date,
    created_at := t.created_at, updated_at := t.updated_at,
    assignee_id := t.assignee_id,
    badge := getTaskBadge now t.due_date t.status,
    assignee := t.assignee_id.map
      (fun a => AssigneeInfo.mk a (joinedAssigneeName db t) (joinedAssigneeEmail db t)) }

/-- Same shaping as performed inside GET /api/users/me/tasks, which calls
its local copy of the badge helper. -/
def shapeTaskMe (now : Int) (db : DB) (t : Task) : ShapedTask :=
  { id := t.id, title := t.title, description := t.description,
    priority := t.priority, status := t.status, due_date := t.due_date,
    created_at := t.created_at, updated_at := t.updated_at,
    assignee_id := t.assignee_id,
    badge := getTaskBadgeMe now t.due_date t.status,
    assignee := t.assignee_id.map
      (fun a => AssigneeInfo.mk a (joinedAssigneeName db t) (joinedAssigneeEmail db t)) }

/-- query('priority').isIn and body('priority').isIn allowed values. -/
def validPriority (p : String) : Bool := ["Low", "Medium", "High"].contains p

/-- query('status').isIn and body('status').isIn allowed values. -/
def validStatus (s : String) : Bool := ["Backlog", "In Progress", "Review", "Done"].contains s

/-- Query string of GET /api/tasks; a missing parameter is none.
The assignee parameter is modelled already parsed to the integer the
validator requires. -/
structure TaskQuery where
  assignee : Option Nat
  priority : Option String
  status : Option String
deriving Repr, DecidableEq

/-- Validators on GET /api/tasks: assignee optional isInt min 1,
priority and status optional isIn their enumerations. -/
def validateTaskQuery (q : TaskQuery) : Bool :=
  (match q.assignee with | none => true | some a => 1 ≤ a) &&
  (match q.priority with | none => true | some p => validPriority p) &&
  (match q.status with | none => true | some s => validStatus s) &&
  true

/-- The WHERE clauses appended for each present filter parameter:
t.assignee_id = ?, t.priority = ?, t.status = ? — all against stored
columns; the derived badge is not a column and cannot be filtered on. -/
def matchesQuery (q : TaskQuery) (t : Task) : Bool :=
  (match q.assignee with | none => true | some a => t.assignee_id == some a) &&
  (match q.priority with | none => true | some p => t.priority == p) &&
  (match q.status with | none => true | some s => t.status == s)

def insertByCreatedDesc (t : Task) : List Task → List Task
  | [] => [t]
  | u :: us =>
    if u.created_at ≤ t.created_at then t :: u :: us
    else u :: insertByCreatedDesc t us

/-- ORDER BY t.created_at DESC. -/
def sortByCreatedDesc : List Task → List Task
  | [] => []
  | t :: ts => insertByCreatedDesc t (sortByCreatedDesc ts)

/-- GET /api/tasks: validate query parameters, select with the filters,
order by created_at descending, and decorate every row with its badge.
The handler performs no write: the store is returned unchanged. -/
def getTasks (now : Int) (db : DB) (q : TaskQuery) : Resp (List ShapedTask) × DB :=
  if !validateTaskQuery q then (Resp.err 400 "Invalid query parameters", db)
  else
    (Resp.ok 200
      ((sortByCreatedDesc (db.tasks.filter (matchesQuery q))).map (shapeTask now db)), db)

/-- GET /api/tasks/:id: param('id').isInt min 1, then select; 404 when no
row matches, otherwise the shaped row. -/
def getTaskById (now : Int) (db : DB) (tid : Nat) : Resp ShapedTask × DB :=
  if tid < 1 then (Resp.err 400 "Invalid task ID", db)
  else
    match findTask db tid with
    | none => (Resp.err 404 "Task not found", db)
    | some t => (Resp.ok 200 (shapeTask now db t), db)

/-- Request body of POST /api/tasks.  The handler destructures only title,
description, priority, assignee_id and due_date; a status field a client may
send is carried here to show it is ignored.  due_date is modelled already
parsed from its ISO-8601 string to epoch milliseconds. -/
structure CreateTaskBody where
  title : String
  description : Option String
  priority : Option String
  status : Option String
  assignee_id : Option Nat
  due_date : Option Int
deriving Repr, DecidableEq

/-- Validators on POST /api/tasks: title trimmed, length 1..255 (the trim
sanitizer rewrites the body field); priority required isIn; assignee_id
optional isInt min 1; due_date optional isISO8601 (parse modelled away). -/
def validateCreateTask (b : CreateTaskBody) : Bool :=
  (1 ≤ (jsTrim b.title).data.length && (jsTrim b.title).data.length ≤ 255) &&
  (match b.priority with | none => false | some p => validPriority p) &&
  (match b.assignee_id with | none => true | some a => 1 ≤ a) &&
  true

/-- JS truthiness of the assignee_id value: undefined, null and 0 are falsy. -/
def truthyNat : Option Nat → Bool
  | none => false
  | some a => a != 0

/-- JS expression description || null after the trim sanitizer: an absent
field or a trimmed-empty string is stored as NULL. -/
def jsOrNullStr : Option String → Option String
  | none => none
  | some s => if (jsTrim s).data.length = 0 then none else some (jsTrim s)

/-- JS expression assignee_id || null: absent or 0 becomes NULL. -/
def jsOrNullNat : Option Nat → Option Nat
  | none => none
  | some a => if a = 0 then none else some a

/-- AUTO_INCREMENT primary key of the tasks table. -/
def nextTaskId (db : DB) : Nat :=
  (db.tasks.map (fun t => t.id)).foldr Nat.max 0 + 1

/-- The row INSERT INTO tasks (title, description, priority, assignee_id,
due_date) VALUES (?, ?, ?, ?, ?) creates: the column list omits status,
so the schema default Backlog applies; created_at and updated_at default to
CURRENT_TIMESTAMP.  The handler destructures priority with default Medium
(dead in practice: the validator makes priority required). -/
def postedTask (now : Int) (db : DB) (b : CreateTaskBody) : Task :=
  { id := nextTaskId db, title := jsTrim b.title,
    description := jsOrNullStr b.description,
    priority := (match b.priority with | some p => p | none => "Medium"),
    status := "Backlog",
    assignee_id := jsOrNullNat b.assignee_id,
    due_date := b.due_date,
    created_at := now, updated_at := now }

/-- The store after the INSERT of POST /api/tasks. -/
def dbAfterInsert (now : Int) (db : DB) (b : CreateTaskBody) : DB :=
  { db with tasks := db.tasks ++ [postedTask now db b] }

/-- POST /api/tasks: validate, verify a truthy assignee_id references an
existing user (400 Assignee not found before any write), INSERT the row,
then re-select the new row and return it shaped, 201. -/
def postTasks (now : Int) (db : DB) (b : CreateTaskBody) : Resp ShapedTask × DB :=
  if !validateCreateTask b then (Resp.err 400 "Validation failed", db)
  else if truthyNat b.assignee_id &&
      (match b.assignee_id with | some a => (findUser db a).isNone | none => true) then
    (Resp.err 400 "Assignee not found", db)
  else
    match findTask (dbAfterInsert now db b) (postedTask now db b).id with
    | none => (Resp.err 500 "Error creating task", dbAfterInsert now db b)
    | some t => (Resp.ok 201 (shapeTask now (dbAfterInsert now db b) t), dbAfterInsert now db b)

/-- Request body of PUT /api/tasks/:id; hasOwnProperty(field) is isSome. -/
structure UpdateTaskBody where
  title : Option String
  description : Option String
  priority : Option String
  status : Option String
  assignee_id : Option Nat
  due_date : Option Int
deriving Repr, DecidableEq

/-- Validators on PUT /api/tasks/:id: every field optional; title trimmed
length 1..255, priority and status isIn, assignee_id isInt min 1. -/
def validateUpdateTask (b : UpdateTaskBody) : Bool :=
  (match b.title with
    | none => true
    | some s => 1 ≤ (jsTrim s).data.length && (jsTrim s).data.length ≤ 255) &&
  (match b.priority with | none => true | some p => validPriority p) &&
  (match b.status with | none => true | some s => validStatus s) &&
  (match b.assignee_id with | none => true | some a => 1 ≤ a) &&
  true

/-- Number of entries pushed into updateFields, one per present field. -/
def countUpdateFields (b : UpdateTaskBody) : Nat :=
  (if b.title.isSome then 1 else 0) + (if b.description.isSome then 1 else 0) +
  (if b.priority.isSome then 1 else 0) + (if b.status.isSome then 1 else 0) +
  (if b.assignee_id.isSome then 1 else 0) + (if b.due_date.isSome then 1 else 0)

/-- UPDATE tasks SET field = ? for each present field, plus
updated_at = CURRENT_TIMESTAMP; the trim sanitizer has rewritten title and
description before the handler reads them. -/
def applyUpdate (now : Int) (b : UpdateTaskBody) (t : Task) : Task :=
  { t with
    title := (match b.title with | some s => jsTrim s | none => t.title),
    description := (match b.description with | some s => some (jsTrim s) | none => t.description),
    priority := (match b.priority with | some p => p | none => t.priority),
    status := (match b.status with | some s => s | none => t.status),
    assignee_id := (match b.assignee_id with | some a => some a | none => t.assignee_id),
    due_date := (match b.due_date with | some d => some d | none => t.due_date),
    updated_at := now }

/-- The store after the statement UPDATE tasks SET (present fields),
updated_at = CURRENT_TIMESTAMP WHERE id = ?. -/
def dbAfterUpdate (now : Int) (db : DB) (tid : Nat) (b : UpdateTaskBody) : DB :=
  { db with tasks :=
      db.tasks.map (fun u => if u.id == tid then applyUpdate now b u else u) }

/-- PUT /api/tasks/:id: validate, 404 when the task row is missing, reject a
truthy assignee_id that references no user (before any write), 400 when the
body carries none of the six updatable fields, otherwise UPDATE the row and
return the re-selected shaped row. -/
def putTask (now : Int) (db : DB) (tid : Nat) (b : UpdateTaskBody) : Resp ShapedTask × DB :=
  if tid < 1 || !validateUpdateTask b then (Resp.err 400 "Validation failed", db)
  else
    match findTask db tid with
    | none => (Resp.err 404 "Task not found", db)
    | some _ =>
      if truthyNat b.assignee_id &&
          (match b.assignee_id with | some a => (findUser db a).isNone | none => true) then
        (Resp.err 400 "Assignee not found", db)
      else if countUpdateFields b = 0 then
        (Resp.err 400 "No fields to update", db)
      else
        match findTask (dbAfterUpdate now db tid b) tid with
        | none => (Resp.err 500 "Error updating task", dbAfterUpdate now db tid b)
        | some t =>
          (Resp.ok 200 (shapeTask now (dbAfterUpdate now db tid b) t),
            dbAfterUpdate now db tid b)

/-- GET /api/users/me/tasks: select the rows with t.assignee_id = current
user, order by created_at descending, decorate each with the badge computed
by the handler-local copy of the helper.  No write. -/
def getMyTasks (now : Int) (db : DB) (userId : Nat) : Resp (List ShapedTask) × DB :=
  (Resp.ok 200
    ((sortByCreatedDesc (db.tasks.filter (fun t => t.assignee_id == some userId))).map
      (shapeTaskMe now db)), db)

/-- The author object attached to a shaped comment (JOIN users). -/
structure AuthorInfo where
  id : Nat
  name : Option String
  email : Option String
deriving Repr, DecidableEq

/-- A comment as returned to the client. -/
structure ShapedComment where
  id : Nat
  taskId : Nat
  body : String
  createdAt : Int
  author : AuthorInfo
deriving Repr, DecidableEq

def shapeComment (db : DB) (c : Comment) : ShapedComment :=
  { id := c.id, taskId := c.task_id, body := c.body, createdAt := c.created_at,
    author := AuthorInfo.mk c.author_id
      ((findUser db c.author_id).map (fun u => u.name))
      ((findUser db c.author_id).map (fun u => u.email)) }

/-- body('body').trim().isLength min 1 max 1000. -/
def validCommentBody (s : String) : Bool :=
  1 ≤ (jsTrim s).data.length && (jsTrim s).data.length ≤ 1000

/-- PUT /api/comments/:id: validate, 404 when the comment row is missing,
403 when the requester is not the author, otherwise UPDATE the body and
return the re-selected shaped comment. -/
def updateComment (db : DB) (userId : Nat) (cid : Nat) (body : String) :
    Resp ShapedComment × DB :=
  if cid < 1 || !validCommentBody body then (Resp.err 400 "Validation failed", db)
  else
    match findComment db cid with
    | none => (Resp.err 404 "Comment not found", db)
    | some c =>
      if c.author_id ≠ userId then
        (Resp.err 403 "Access denied: You can only edit your own comments", db)
      else
        let db' : DB :=
          { db with comments :=
              db.comments.map (fun x => if x.id == cid then { x with body := jsTrim body } else x) }
        match findComment db' cid with
        | none => (Resp.err 500 "Error updating comment", db')
        | some c' => (Resp.ok 200 (shapeComment db' c'), db')

/-- DELETE /api/comments/:id: validate the id, 404 when the row is missing,
403 when the requester is not the author, otherwise DELETE the row. -/
def deleteComment (db : DB) (userId : Nat) (cid : Nat) : Resp String × DB :=
  if cid < 1 then (Resp.err 400 "Invalid comment ID", db)
  else
    match findComment db cid with
    | none => (Resp.err 404 "Comment not found", db)
    | some c =>
      if c.author_id ≠ userId then
        (Resp.err 403 "Access denied: You can only delete your own comments", db)
      else
        (Resp.ok 200 "Comment deleted successfully",
          { db with comments := db.comments.filter (fun x => !(x.id == cid)) })

/-- Outcome of jwt.verify on a presented token, abstracting the JWT
library: a decoded payload carrying userId, or one of its two error
classes. -/
inductive VerifyResult where
  | ok (userId : Nat)
  | jsonWebTokenError
  | tokenExpiredError
deriving Repr, DecidableEq

/-- authHeader and authHeader.split(' ')[1]: the token is the part after
the first space; a missing header, a header without a second part, or an
empty second part are all falsy and yield no token. -/
def extractToken (authHeader : Option String) : Option String :=
  match authHeader with
  | none => none
  | some h =>
    match (jsSplitSpace h).get? 1 with
    | none => none
    | some t => if t = "" then none else some t

/-- Outcome of the authenticateToken middleware: either the request
proceeds with req.user set, or it is rejected with a status code. -/
inductive AuthOutcome where
  | proceed (user : User)
  | reject (code : Nat) (message : String)
deriving Repr, DecidableEq

/-- middleware/auth.js authenticateToken: 401 when no token is presented,
403 for a JsonWebTokenError or TokenExpiredError from jwt.verify, 401 when
the decoded userId no longer matches a users row, else proceed. -/
def authenticateToken (verify : String → VerifyResult) (db : DB)
    (authHeader : Option String) : AuthOutcome :=
  match extractToken authHeader with
  | none => AuthOutcome.reject 401 "Access token required"
  | some tok =>
    match verify tok with
    | VerifyResult.jsonWebTokenError => AuthOutcome.reject 403 "Invalid token"
    | VerifyResult.tokenExpiredError => AuthOutcome.reject 403 "Token expired"
    | VerifyResult.ok uid =>
      match findUser db uid with
      | none => AuthOutcome.reject 401 "User not found"
      | some u => AuthOutcome.proceed u

theorem hoursDiff_neg_iff (t : Int) :
    ((t : ℚ) / (1000 * 3600) < 0) ↔ t < 0 := by
  rw [div_lt_iff₀ (by norm_num)]
  norm_num

theorem hoursDiff_le_iff (t : Int) :
    ((t : ℚ) / (1000 * 3600) ≤ 24) ↔ t ≤ 86400000 := by
  rw [div_le_iff₀ (by norm_num)]
  norm_num
  constructor
  · intro h; exact_mod_cast h
  · intro h; exact_mod_cast h

/-- Sample rows used by the witness theorems. -/
def sampleUser : User := User.mk 1 "alice@example.com" "Alice" "hash"

def sampleTask : Task := Task.mk 1 "Task one" none "Medium" "Backlog" (some 1) (some 3600000) 5 5

def sampleComment : Comment := Comment.mk 1 1 1 "hello" 6

def sampleDB : DB := DB.mk [sampleUser] [sampleTask] [sampleComment]

/-- C1: for every status value (including values outside the four valid
statuses) and every due date however far in the past, getTaskBadge returns
On Track whenever the due date is absent or the status is Done; the guard
fires before any time computation, so the result does not depend on the
current time. -/
theorem c1_guard_on_track (now now' : Int) (dueDate : Option Int) (status : String)
    (h : dueDate = none ∨ status = "Done") :
    getTaskBadge now dueDate status = "On Track" ∧
    getTaskBadge now dueDate status = getTaskBadge now' dueDate status := by
  rcases h with h | h
  · subst h; exact ⟨rfl, rfl⟩
  · subst h
    cases dueDate with
    | none => exact ⟨rfl, rfl⟩
    | some due => simp [getTaskBadge]

theorem c1_guard_on_track_witness :
    getTaskBadge 0 (some (-999999999999)) "Done" = "On Track" ∧
    getTaskBadge 0 (some (-999999999999)) "Done" =
      getTaskBadge 123456789 (some (-999999999999)) "Done" :=
  c1_guard_on_track 0 123456789 (some (-999999999999)) "Done" (Or.inr rfl)

/-- C2: for a task with a due date present and status not Done, evaluated at
current time now, the badge is Overdue exactly when hoursRemaining =
(dueDate - now) in hours is strictly negative, At Risk exactly when
0 <= hoursRemaining <= 24 (both boundaries inclusive), and On Track exactly
when hoursRemaining > 24. -/
theorem c2_badge_thresholds (now due : Int) (status : String) (hs : status ≠ "Done") :
    (getTaskBadge now (some due) status = "Overdue" ↔
      ((due - now : Int) : ℚ) / (1000 * 3600) < 0) ∧
    (getTaskBadge now (some due) status = "At Risk" ↔
      (0 ≤ ((due - now : Int) : ℚ) / (1000 * 3600) ∧
        ((due - now : Int) : ℚ) / (1000 * 3600) ≤ 24)) ∧
    (getTaskBadge now (some due) status = "On Track" ↔
      24 < ((due - now : Int) : ℚ) / (1000 * 3600)) := by
  have hodat : ("Overdue" : String) ≠ "At Risk" := by decide
  have hodot : ("Overdue" : String) ≠ "On Track" := by decide
  have hatot : ("At Risk" : String) ≠ "On Track" := by decide
  simp only [getTaskBadge, if_neg hs]
  split_ifs with h1 h2
  · refine ⟨⟨fun _ => h1, fun _ => rfl⟩, ⟨fun h => absurd h hodat, ?_⟩,
      ⟨fun h => absurd h hodot, ?_⟩⟩
    · rintro ⟨h0, -⟩
      exact absurd h1 (not_lt.2 h0)
    · intro h24
      exact absurd h1 (not_lt.2 (le_of_lt (lt_trans (by norm_num) h24)))
  · exact ⟨⟨fun h => absurd h.symm hodat, fun hlt => absurd hlt h1⟩,
      ⟨fun _ => ⟨not_lt.1 h1, h2⟩, fun _ => rfl⟩,
      ⟨fun h => absurd h hatot, fun h24 => absurd h2 (not_le.2 h24)⟩⟩
  · exact ⟨⟨fun h => absurd h.symm hodot, fun hlt => absurd hlt h1⟩,
      ⟨fun h => absurd h.symm hatot, fun hc => absurd hc.2 h2⟩,
      ⟨fun _ => not_le.1 h2, fun _ => rfl⟩⟩

theorem c2_badge_thresholds_witness :
    (getTaskBadge 0 (some 86400000) "In Progress" = "Overdue" ↔
      ((86400000 - 0 : Int) : ℚ) / (1000 * 3600) < 0) ∧
    (getTaskBadge 0 (some 86400000) "In Progress" = "At Risk" ↔
      (0 ≤ ((86400000 - 0 : Int) : ℚ) / (1000 * 3600) ∧
        ((86400000 - 0 : Int) : ℚ) / (1000 * 3600) ≤ 24)) ∧
    (getTaskBadge 0 (some 86400000) "In Progress" = "On Track" ↔
      24 < ((86400000 - 0 : Int) : ℚ) / (1000 * 3600)) :=
  c2_badge_thresholds 0 86400000 "In Progress" (by decide)

/-- C8: for every request to a protected route, absence of a bearer token in
the Authorization header yields 401, and a token that fails verification or
has expired yields 403. -/
theorem c8_auth_rejections (verify : String → VerifyResult) (db : DB)
    (hdr : Option String) (tok : String) :
    (extractToken hdr = none →
      authenticateToken verify db hdr = AuthOutcome.reject 401 "Access token required") ∧
    (extractToken hdr = some tok → verify tok = VerifyResult.jsonWebTokenError →
      authenticateToken verify db hdr = AuthOutcome.reject 403 "Invalid token") ∧
    (extractToken hdr = some tok → verify tok = VerifyResult.tokenExpiredError →
      authenticateToken verify db hdr = AuthOutcome.reject 403 "Token expired") := by
  refine ⟨fun h => ?_, fun h hv => ?_, fun h hv => ?_⟩
  · simp [authenticateToken, h]
  · simp [authenticateToken, h, hv]
  · simp [authenticateToken, h, hv]

theorem c8_auth_rejections_witness :
    authenticateToken (fun _ => VerifyResult.jsonWebTokenError) sampleDB none =
      AuthOutcome.reject 401 "Access token required" ∧
    authenticateToken (fun _ => VerifyResult.jsonWebTokenError) sampleDB (some "Bearer abc") =
      AuthOutcome.reject 403 "Invalid token" ∧
    authenticateToken (fun _ => VerifyResult.tokenExpiredError) sampleDB (some "Bearer abc") =
      AuthOutcome.reject 403 "Token expired" :=
  ⟨(c8_auth_rejections (fun _ => VerifyResult.jsonWebTokenError) sampleDB none "abc").1 rfl,
   (c8_auth_rejections (fun _ => VerifyResult.jsonWebTokenError) sampleDB
      (some "Bearer abc") "abc").2.1 (by decide) rfl,
   (c8_auth_rejections (fun _ => VerifyResult.tokenExpiredError) sampleDB
      (some "Bearer abc") "abc").2.2 (by decide) rfl⟩

/-- C7: for every existing comment, a PUT /comments/:id or
DELETE /comments/:id request by an authenticated user who is not the
comment's author returns 403 and leaves the store unchanged; the
authorization check compares the stored author_id with the requester. -/
theorem c7_comment_author_only (db : DB) (userId cid : Nat) (body : String) (c : Comment)
    (hb : validCommentBody body = true) (hid : 1 ≤ cid)
    (hc : findComment db cid = some c) (hne : c.author_id ≠ userId) :
    updateComment db userId cid body =
      (Resp.err 403 "Access denied: You can only edit your own comments", db) ∧
    deleteComment db userId cid =
      (Resp.err 403 "Access denied: You can only delete your own comments", db) := by
  have h1 : ¬ cid < 1 := by omega
  constructor
  · simp [updateComment, h1, hb, hc, hne]
  · simp [deleteComment, h1, hc, hne]

theorem c7_comment_author_only_witness :
    updateComment sampleDB 2 1 "edited" =
      (Resp.err 403 "Access denied: You can only edit your own comments", sampleDB) ∧
    deleteComment sampleDB 2 1 =
      (Resp.err 403 "Access denied: You can only delete your own comments", sampleDB) :=
  c7_comment_author_only sampleDB 2 1 "edited" sampleComment (by decide) (by decide)
    rfl (by decide)

/-- C9: a PUT /tasks/:id request on an existing task whose body contains
none of the six updatable fields returns 400 with message No fields to
update, and the store, including the task's updated_at, is unchanged. -/
theorem c9_empty_update_rejected (now : Int) (db : DB) (tid : Nat) (b : UpdateTaskBody)
    (t : Task) (hid : 1 ≤ tid) (ht : findTask db tid = some t)
    (h1 : b.title = none) (h2 : b.description = none) (h3 : b.priority = none)
    (h4 : b.status = none) (h5 : b.assignee_id = none) (h6 : b.due_date = none) :
    putTask now db tid b = (Resp.err 400 "No fields to update", db) := by
  have hlt : ¬ tid < 1 := by omega
  obtain ⟨f1, f2, f3, f4, f5, f6⟩ := b
  simp only at h1 h2 h3 h4 h5 h6
  subst h1 h2 h3 h4 h5 h6
  simp [putTask, hlt, ht, validateUpdateTask, truthyNat, countUpdateFields]

theorem c9_empty_update_rejected_witness :
    putTask 99 sampleDB 1 (UpdateTaskBody.mk none none none none none none) =
      (Resp.err 400 "No fields to update", sampleDB) :=
  c9_empty_update_rejected 99 sampleDB 1 (UpdateTaskBody.mk none none none none none none)
    sampleTask (by decide) rfl rfl rfl rfl rfl rfl rfl

theorem applyUpdate_id (now : Int) (b : UpdateTaskBody) (t : Task) :
    (applyUpdate now b t).id = t.id := rfl

theorem find?_map_ite {l : List Task} {tid : Nat} (f : Task → Task)
    (hf : ∀ u, (f u).id = u.id) {t : Task}
    (ht : l.find? (fun u => u.id == tid) = some t) :
    (l.map (fun u => if u.id == tid then f u else u)).find? (fun u => u.id == tid)
      = some (f t) := by
  have hcomp : ((fun u : Task => u.id == tid) ∘ (fun u => if u.id == tid then f u else u))
      = fun u : Task => u.id == tid := by
    funext u
    by_cases h : (u.id == tid) = true
    · show ((if (u.id == tid) = true then f u else u).id == tid) = (u.id == tid)
      rw [if_pos h, hf]
    · show ((if (u.id == tid) = true then f u else u).id == tid) = (u.id == tid)
      rw [if_neg h]
  have hpt := List.find?_some ht
  rw [List.find?_map, hcomp, ht, Option.map_some', if_pos hpt]

theorem findTask_dbAfterUpdate (now : Int) (db : DB) (tid : Nat) (b : UpdateTaskBody)
    (t : Task) (ht : findTask db tid = some t) :
    findTask (dbAfterUpdate now db tid b) tid = some (applyUpdate now b t) :=
  find?_map_ite (applyUpdate now b) (fun _ => rfl) ht

/-- Characterization of the successful path of PUT /api/tasks/:id: when the
body validates, the task exists, any present assignee references a user and
at least one field is present, the handler performs the UPDATE and returns
the re-selected row shaped. -/
theorem putTask_success (now : Int) (db : DB) (tid : Nat) (b : UpdateTaskBody) (t : Task)
    (hv : validateUpdateTask b = true) (hid : 1 ≤ tid) (ht : findTask db tid = some t)
    (ha : ∀ a, b.assignee_id = some a → (findUser db a).isSome = true)
    (hn : countUpdateFields b ≠ 0) :
    putTask now db tid b =
      (Resp.ok 200 (shapeTask now (dbAfterUpdate now db tid b) (applyUpdate now b t)),
        dbAfterUpdate now db tid b) := by
  have hlt : ¬ tid < 1 := by omega
  have hass : (truthyNat b.assignee_id &&
      (match b.assignee_id with
        | some a => (findUser db a).isNone
        | none => true)) = false := by
    cases hba : b.assignee_id with
    | none => simp [truthyNat]
    | some a =>
      have hsome := ha a hba
      cases hfu : findUser db a with
      | none => rw [hfu] at hsome; simp at hsome
      | some u => simp [hfu]
  simp only [putTask, hlt, hv, decide_False, Bool.not_true, Bool.or_false, Bool.false_or]
  rw [ht]
  simp only [hass, Bool.false_eq_true, if_false, if_neg hn]
  rw [findTask_dbAfterUpdate now db tid b t ht]

theorem id_le_foldr_max {t : Task} {l : List Task} (h : t ∈ l) :
    t.id ≤ (l.map (fun x => x.id)).foldr Nat.max 0 := by
  induction l with
  | nil => cases h
  | cons a l ih =>
    rcases List.mem_cons.1 h with h | h
    · subst h
      exact Nat.le_max_left _ _
    · exact le_trans (ih h) (Nat.le_max_right _ _)

theorem find?_append_singleton {l : List Task} {x : Task} {p : Task → Bool}
    (hl : l.find? p = none) (hx : p x = true) :
    (l ++ [x]).find? p = some x := by
  induction l with
  | nil =>
    rw [List.nil_append, List.find?_cons, hx]
  | cons a l ih =>
    rw [List.find?_cons] at hl
    rw [List.cons_append, List.find?_cons]
    cases hpa : p a with
    | true => rw [hpa] at hl; simp at hl
    | false =>
      rw [hpa] at hl
      simp only [hpa]
      exact ih hl

theorem findTask_dbAfterInsert (now : Int) (db : DB) (cb : CreateTaskBody) :
    findTask (dbAfterInsert now db cb) (postedTask now db cb).id
      = some (postedTask now db cb) := by
  have hnone : db.tasks.find? (fun u => u.id == (postedTask now db cb).id) = none := by
    rw [List.find?_eq_none]
    intro u hu
    have hle : u.id ≤ (db.tasks.map (fun x => x.id)).foldr Nat.max 0 := id_le_foldr_max hu
    have hne : u.id ≠ (postedTask now db cb).id := by
      show u.id ≠ nextTaskId db
      unfold nextTaskId
      omega
    simpa using hne
  show List.find? _ (db.tasks ++ [postedTask now db cb]) = _
  exact find?_append_singleton hnone (by simp)

/-- Branch analysis of POST /api/tasks: the handler either rejects with 400
leaving the store untouched, or inserts the new row and returns it shaped
with 201; on the success branch every truthy assignee_id present in the
body references an existing user. -/
theorem postTasks_cases (now : Int) (db : DB) (cb : CreateTaskBody) :
    postTasks now db cb = (Resp.err 400 "Validation failed", db) ∨
    postTasks now db cb = (Resp.err 400 "Assignee not found", db) ∨
    ((∀ a, cb.assignee_id = some a → a ≠ 0 → (findUser db a).isSome = true) ∧
      postTasks now db cb =
        (Resp.ok 201 (shapeTask now (dbAfterInsert now db cb) (postedTask now db cb)),
          dbAfterInsert now db cb)) := by
  unfold postTasks
  by_cases hv : (!validateCreateTask cb) = true
  · rw [if_pos hv]
    left; rfl
  · rw [if_neg hv]
    by_cases hass : (truthyNat cb.assignee_id &&
        (match cb.assignee_id with
          | some a => (findUser db a).isNone
          | none => true)) = true
    · rw [if_pos hass]
      right; left; rfl
    · rw [if_neg hass]
      right; right
      refine ⟨?_, ?_⟩
      · intro a hba haz
        rw [hba] at hass
        simp only [truthyNat] at hass
        cases hfu : findUser db a with
        | none =>
          rw [hfu] at hass
          exact absurd (by simp [haz]) hass
        | some u => simp
      · rw [findTask_dbAfterInsert]

/-- The successful path of POST /api/tasks: when the body validates and any
truthy assignee_id references an existing user, the row is inserted and
returned shaped with 201. -/
theorem postTasks_success (now : Int) (db : DB) (cb : CreateTaskBody)
    (hv : validateCreateTask cb = true)
    (ha : ∀ a, cb.assignee_id = some a → a ≠ 0 → (findUser db a).isSome = true) :
    postTasks now db cb =
      (Resp.ok 201 (shapeTask now (dbAfterInsert now db cb) (postedTask now db cb)),
        dbAfterInsert now db cb) := by
  have hass : (truthyNat cb.assignee_id &&
      (match cb.assignee_id with
        | some a => (findUser db a).isNone
        | none => true)) = false := by
    cases hba : cb.assignee_id with
    | none => simp [truthyNat]
    | some a =>
      by_cases haz : a = 0
      · subst haz; simp [truthyNat]
      · have hsome := ha a hba haz
        cases hfu : findUser db a with
        | none => rw [hfu] at hsome; simp at hsome
        | some u => simp [hfu]
  unfold postTasks
  rw [hv]
  simp only [Bool.not_true, Bool.false_eq_true, if_false, hass]
  rw [findTask_dbAfterInsert]

/-- An update body that carries only a status, as the Kanban drag-and-drop
client sends. -/
def statusOnlyBody (s : String) : UpdateTaskBody :=
  UpdateTaskBody.mk none none none (some s) none none

/-- C4: a task is created with status Backlog no matter what the POST /tasks
request carries — the INSERT column list omits status entirely, so the
schema default applies and in particular any unspecified status yields
Backlog — and status transitions via PUT /tasks/:id are unconstrained: any
of the four valid statuses replaces any current status value with no guard
on the previous value. -/
theorem c4_lifecycle (now : Int) (db : DB) (cb : CreateTaskBody) (tid : Nat) (t : Task)
    (s : String) (r : ShapedTask)
    (hs : validStatus s = true) (hid : 1 ≤ tid) (ht : findTask db tid = some t)
    (hok : (postTasks now db cb).1 = Resp.ok 201 r) :
    r.status = "Backlog" ∧
    putTask now db tid (statusOnlyBody s) =
      (Resp.ok 200 (shapeTask now (dbAfterUpdate now db tid (statusOnlyBody s))
          (applyUpdate now (statusOnlyBody s) t)),
        dbAfterUpdate now db tid (statusOnlyBody s)) ∧
    (applyUpdate now (statusOnlyBody s) t).status = s := by
  refine ⟨?_, ?_, rfl⟩
  · rcases postTasks_cases now db cb with h | h | ⟨-, h⟩
    · rw [h] at hok; simp at hok
    · rw [h] at hok; simp at hok
    · rw [h] at hok
      have hr : r = shapeTask now (dbAfterInsert now db cb) (postedTask now db cb) := by
        injection hok with h1 h2
        exact h2.symm
      rw [hr]
      rfl
  · apply putTask_success now db tid (statusOnlyBody s) t _ hid ht
    · intro a hba
      exact absurd hba (by simp [statusOnlyBody])
    · simp [countUpdateFields, statusOnlyBody]
    · simp [validateUpdateTask, statusOnlyBody, hs]

/-- A create body that also carries a status field, which the handler
ignores. -/
def sampleCreateBody : CreateTaskBody :=
  CreateTaskBody.mk "Task two" none (some "High") (some "Done") none none

/-- The row POST /tasks inserts for the witness body: although the request
carries status Done, the stored status is Backlog. -/
def samplePostedTask : Task :=
  Task.mk 2 "Task two" none "High" "Backlog" none none 7 7

def sampleDBAfterPost : DB := DB.mk [sampleUser] [sampleTask, samplePostedTask] [sampleComment]

theorem c4_lifecycle_witness :
    (shapeTask 7 sampleDBAfterPost samplePostedTask).status = "Backlog" ∧
    (applyUpdate 7 (statusOnlyBody "Done") sampleTask).status = "Done" := by
  have h := c4_lifecycle 7 sampleDB sampleCreateBody 1 sampleTask "Done"
    (shapeTask 7 sampleDBAfterPost samplePostedTask) rfl (by decide) rfl rfl
  exact ⟨h.1, h.2.2⟩

/-- C5: a PUT /tasks/:id on an existing task whose body carries a subset of
the six updatable fields updates exactly the rows with that id, every field
not present in the body keeps its stored value, and updated_at is refreshed
to the write time. -/
theorem c5_partial_update_frame (now : Int) (db : DB) (tid : Nat) (b : UpdateTaskBody)
    (t : Task)
    (hv : validateUpdateTask b = true) (hid : 1 ≤ tid) (ht : findTask db tid = some t)
    (ha : ∀ a, b.assignee_id = some a → (findUser db a).isSome = true)
    (hn : countUpdateFields b ≠ 0) :
    (putTask now db tid b).2.tasks =
      db.tasks.map (fun u => if u.id == tid then applyUpdate now b u else u) ∧
    (putTask now db tid b).1 =
      Resp.ok 200 (shapeTask now (putTask now db tid b).2 (applyUpdate now b t)) ∧
    (b.title = none → (applyUpdate now b t).title = t.title) ∧
    (b.description = none → (applyUpdate now b t).description = t.description) ∧
    (b.priority = none → (applyUpdate now b t).priority = t.priority) ∧
    (b.status = none → (applyUpdate now b t).status = t.status) ∧
    (b.assignee_id = none → (applyUpdate now b t).assignee_id = t.assignee_id) ∧
    (b.due_date = none → (applyUpdate now b t).due_date = t.due_date) ∧
    (applyUpdate now b t).updated_at = now ∧
    (applyUpdate now b t).id = t.id ∧
    (applyUpdate now b t).created_at = t.created_at := by
  rw [putTask_success now db tid b t hv hid ht ha hn]
  refine ⟨rfl, rfl, ?_, ?_, ?_, ?_, ?_, ?_, rfl, rfl, rfl⟩ <;>
    (intro h; simp [applyUpdate, h])

def sampleUpdateBody : UpdateTaskBody :=
  UpdateTaskBody.mk none none (some "High") none none none

theorem c5_partial_update_frame_witness :
    (putTask 9 sampleDB 1 sampleUpdateBody).2.tasks =
      sampleDB.tasks.map (fun u => if u.id == 1 then applyUpdate 9 sampleUpdateBody u else u) ∧
    (applyUpdate 9 sampleUpdateBody sampleTask).title = sampleTask.title ∧
    (applyUpdate 9 sampleUpdateBody sampleTask).status = sampleTask.status ∧
    (applyUpdate 9 sampleUpdateBody sampleTask).updated_at = 9 := by
  have h := c5_partial_update_frame 9 sampleDB 1 sampleUpdateBody sampleTask rfl
    (by decide) rfl (fun a ha => by cases ha) (by decide)
  obtain ⟨hA, hB, ht1, hd1, hp1, hs1, ha1, hdd1, hu1, hi1, hc1⟩ := h
  exact ⟨hA, ht1 rfl, hs1 rfl, hu1⟩

/-- The referential invariant of the data model: a stored task's assignee,
if set, references an existing user. -/
def assigneeInv (db : DB) : Prop :=
  ∀ t ∈ db.tasks, ∀ a, t.assignee_id = some a → ∃ u ∈ db.users, u.id = a

theorem findUser_isSome_mem {db : DB} {a : Nat} (h : (findUser db a).isSome = true) :
    ∃ u ∈ db.users, u.id = a := by
  cases hfu : findUser db a with
  | none => rw [hfu] at h; simp at h
  | some u =>
    refine ⟨u, List.mem_of_find?_eq_some hfu, ?_⟩
    have hp := List.find?_some hfu
    simpa using hp

/-- Branch analysis of PUT /api/tasks/:id at the level of the store: either
the handler left the store untouched, or it performed the UPDATE and every
assignee_id present in the body references an existing user. -/
theorem putTask_db_cases (now : Int) (db : DB) (tid : Nat) (b : UpdateTaskBody) :
    (putTask now db tid b).2 = db ∨
    ((∀ a, b.assignee_id = some a → (findUser db a).isSome = true) ∧
      (putTask now db tid b).2 = dbAfterUpdate now db tid b) := by
  unfold putTask
  by_cases h1 : (decide (tid < 1) || !validateUpdateTask b) = true
  · rw [if_pos h1]
    left; rfl
  · rw [if_neg h1]
    have hv : validateUpdateTask b = true := by
      cases hvb : validateUpdateTask b with
      | true => rfl
      | false => exact absurd (by rw [hvb]; simp) h1
    cases ht : findTask db tid with
    | none => left; rfl
    | some t =>
      by_cases hass : (truthyNat b.assignee_id &&
          (match b.assignee_id with
            | some a => (findUser db a).isNone
            | none => true)) = true
      · rw [if_pos hass]
        left; rfl
      · rw [if_neg hass]
        by_cases hn : countUpdateFields b = 0
        · rw [if_pos hn]
          left; rfl
        · rw [if_neg hn]
          right
          refine ⟨?_, ?_⟩
          · intro a hba
            have h1a : 1 ≤ a := by
              simp only [validateUpdateTask, hba, Bool.and_eq_true,
                decide_eq_true_eq] at hv
              exact hv.1.2
            rw [hba] at hass
            simp only [truthyNat] at hass
            cases hfu : findUser db a with
            | none =>
              rw [hfu] at hass
              refine absurd ?_ hass
              simp
              omega
            | some u => simp
          · rw [findTask_dbAfterUpdate now db tid b t ht]

/-- C6: a POST /tasks or PUT /tasks/:id carrying an assignee_id that
references no existing user is rejected with 400 Assignee not found before
any write, and consequently both handlers preserve the invariant that every
stored task's assignee is either null or references an existing user. -/
theorem c6_assignee_must_exist (now : Int) (db : DB) (cb : CreateTaskBody)
    (ub : UpdateTaskBody) (tid a a' : Nat)
    (hvc : validateCreateTask cb = true) (hba : cb.assignee_id = some a)
    (hfn : findUser db a = none)
    (hvu : validateUpdateTask ub = true) (hid : 1 ≤ tid)
    (htask : (findTask db tid).isSome = true) (hba' : ub.assignee_id = some a')
    (hfn' : findUser db a' = none) :
    postTasks now db cb = (Resp.err 400 "Assignee not found", db) ∧
    putTask now db tid ub = (Resp.err 400 "Assignee not found", db) ∧
    (assigneeInv db →
      assigneeInv (postTasks now db cb).2 ∧ assigneeInv (putTask now db tid ub).2) := by
  refine ⟨?_, ?_, ?_⟩
  · have h1a : 1 ≤ a := by
      simp only [validateCreateTask, hba, Bool.and_eq_true, decide_eq_true_eq] at hvc
      exact hvc.1.2
    have haz : (a != 0) = true := by simp; omega
    simp [postTasks, hvc, hba, hfn, truthyNat, haz]
  · have h1a : 1 ≤ a' := by
      simp only [validateUpdateTask, hba', Bool.and_eq_true, decide_eq_true_eq] at hvu
      exact hvu.1.2
    have haz : (a' != 0) = true := by simp; omega
    have hlt : ¬ tid < 1 := by omega
    obtain ⟨t, ht⟩ := Option.isSome_iff_exists.1 htask
    simp [putTask, hlt, hvu, ht, hba', hfn', truthyNat, haz]
  · intro hinv
    constructor
    · rcases postTasks_cases now db cb with h | h | ⟨hok, h⟩
      · rw [h]; exact hinv
      · rw [h]; exact hinv
      · rw [h]
        intro t htm x htx
        rcases List.mem_append.1 htm with hm | hm
        · exact hinv t hm x htx
        · rw [List.mem_singleton.1 hm] at htx
          cases hbc : cb.assignee_id with
          | none => simp [postedTask, jsOrNullNat, hbc] at htx
          | some a2 =>
            by_cases haz2 : a2 = 0
            · subst haz2
              simp [postedTask, jsOrNullNat, hbc] at htx
            · have hx : a2 = x := by
                simp only [postedTask, jsOrNullNat, hbc, if_neg haz2] at htx
                injection htx
              subst hx
              exact findUser_isSome_mem (hok a2 hbc haz2)
    · rcases putTask_db_cases now db tid ub with h | ⟨hok, h⟩
      · rw [h]; exact hinv
      · rw [h]
        intro t htm x htx
        rcases List.mem_map.1 htm with ⟨u, hu, rfl⟩
        by_cases hcond : (u.id == tid) = true
        · rw [if_pos hcond] at htx
          cases hbu : ub.assignee_id with
          | none =>
            refine hinv u hu x ?_
            simpa [applyUpdate, hbu] using htx
          | some a2 =>
            have hsome := hok a2 hbu
            have hx : a2 = x := by
              simp only [applyUpdate, hbu] at htx
              injection htx
            subst hx
            exact findUser_isSome_mem hsome
        · rw [if_neg hcond] at htx
          exact hinv u hu x htx

/-- A create body whose assignee_id references no stored user. -/
def badCreateBody : CreateTaskBody :=
  CreateTaskBody.mk "X" none (some "Low") none (some 99) none

/-- An update body whose assignee_id references no stored user. -/
def badUpdateBody : UpdateTaskBody :=
  UpdateTaskBody.mk none none none none (some 99) none

theorem sampleDB_assigneeInv : assigneeInv sampleDB := by
  intro t htm a hta
  rw [List.mem_singleton.1 htm] at hta
  injection hta with h
  exact ⟨sampleUser, List.mem_singleton.2 rfl, h⟩

theorem c6_assignee_must_exist_witness :
    postTasks 7 sampleDB badCreateBody = (Resp.err 400 "Assignee not found", sampleDB) ∧
    putTask 7 sampleDB 1 badUpdateBody = (Resp.err 400 "Assignee not found", sampleDB) ∧
    assigneeInv (postTasks 7 sampleDB badCreateBody).2 ∧
    assigneeInv (putTask 7 sampleDB 1 badUpdateBody).2 := by
  have h := c6_assignee_must_exist 7 sampleDB badCreateBody badUpdateBody 1 99 99
    rfl rfl rfl rfl (by decide) rfl rfl rfl
  exact ⟨h.1, h.2.1, (h.2.2 sampleDB_assigneeInv).1, (h.2.2 sampleDB_assigneeInv).2⟩

theorem mem_insertByCreatedDesc {a t : Task} {xs : List Task} :
    a ∈ insertByCreatedDesc t xs ↔ a = t ∨ a ∈ xs := by
  induction xs with
  | nil => simp [insertByCreatedDesc]
  | cons u us ih =>
    unfold insertByCreatedDesc
    by_cases h : u.created_at ≤ t.created_at
    · rw [if_pos h]
      simp [List.mem_cons]
    · rw [if_neg h]
      simp only [List.mem_cons, ih]
      tauto

theorem mem_sortByCreatedDesc {a : Task} {xs : List Task} :
    a ∈ sortByCreatedDesc xs ↔ a ∈ xs := by
  induction xs with
  | nil => simp [sortByCreatedDesc]
  | cons t ts ih =>
    simp [sortByCreatedDesc, mem_insertByCreatedDesc, ih, List.mem_cons]

theorem shapeTask_badge (now : Int) (db : DB) (t : Task) :
    (shapeTask now db t).badge =
      getTaskBadge now (shapeTask now db t).due_date (shapeTask now db t).status := rfl

theorem shapeTaskMe_badge (now : Int) (db : DB) (t : Task) :
    (shapeTaskMe now db t).badge =
      getTaskBadge now (shapeTaskMe now db t).due_date (shapeTaskMe now db t).status := rfl

/-- Branch analysis of PUT /api/tasks/:id: one of the four rejections, each
leaving the store untouched, or the UPDATE of the found row. -/
theorem putTask_cases (now : Int) (db : DB) (tid : Nat) (b : UpdateTaskBody) :
    putTask now db tid b = (Resp.err 400 "Validation failed", db) ∨
    putTask now db tid b = (Resp.err 404 "Task not found", db) ∨
    putTask now db tid b = (Resp.err 400 "Assignee not found", db) ∨
    putTask now db tid b = (Resp.err 400 "No fields to update", db) ∨
    ∃ t, findTask db tid = some t ∧
      putTask now db tid b =
        (Resp.ok 200 (shapeTask now (dbAfterUpdate now db tid b) (applyUpdate now b t)),
          dbAfterUpdate now db tid b) := by
  unfold putTask
  by_cases h1 : (decide (tid < 1) || !validateUpdateTask b) = true
  · rw [if_pos h1]
    exact Or.inl rfl
  · rw [if_neg h1]
    cases ht : findTask db tid with
    | none => exact Or.inr (Or.inl rfl)
    | some t =>
      by_cases hass : (truthyNat b.assignee_id &&
          (match b.assignee_id with
            | some a => (findUser db a).isNone
            | none => true)) = true
      · rw [if_pos hass]
        exact Or.inr (Or.inr (Or.inl rfl))
      · rw [if_neg hass]
        by_cases hn : countUpdateFields b = 0
        · rw [if_pos hn]
          exact Or.inr (Or.inr (Or.inr (Or.inl rfl)))
        · rw [if_neg hn]
          refine Or.inr (Or.inr (Or.inr (Or.inr ⟨t, rfl, ?_⟩)))
          rw [findTask_dbAfterUpdate now db tid b t ht]

/-- C3: every task returned by any listing or detail response (GET /tasks,
GET /tasks/:id, POST /tasks, PUT /tasks/:id, GET /users/me/tasks) carries a
badge field equal to the classifier applied to that task's stored due date
and status; the read handlers never write the store (and the Task row type
has no badge column at all, so the badge is never written), and the status
query filter of GET /tasks selects exactly the rows whose stored status
field matches — no request parameter filters on the badge. -/
theorem c3_badge_on_every_read (now : Int) (db : DB) (q : TaskQuery) (uid tid : Nat)
    (cb : CreateTaskBody) (ub : UpdateTaskBody) :
    ((getTasks now db q).2 = db ∧
      ∀ l, (getTasks now db q).1 = Resp.ok 200 l →
        (∀ r ∈ l, r.badge = getTaskBadge now r.due_date r.status ∧
          (∀ s, q.status = some s → r.status = s) ∧
          ∃ t ∈ db.tasks, matchesQuery q t = true ∧ r = shapeTask now db t) ∧
        (∀ t ∈ db.tasks, matchesQuery q t = true → shapeTask now db t ∈ l)) ∧
    ((getTaskById now db tid).2 = db ∧
      ∀ r, (getTaskById now db tid).1 = Resp.ok 200 r →
        r.badge = getTaskBadge now r.due_date r.status ∧
        ∃ t ∈ db.tasks, r = shapeTask now db t) ∧
    (∀ code r, (postTasks now db cb).1 = Resp.ok code r →
      r.badge = getTaskBadge now r.due_date r.status ∧
      ∃ t ∈ (postTasks now db cb).2.tasks, r = shapeTask now (postTasks now db cb).2 t) ∧
    (∀ code r, (putTask now db tid ub).1 = Resp.ok code r →
      r.badge = getTaskBadge now r.due_date r.status ∧
      ∃ t ∈ (putTask now db tid ub).2.tasks, r = shapeTask now (putTask now db tid ub).2 t) ∧
    ((getMyTasks now db uid).2 = db ∧
      ∀ l, (getMyTasks now db uid).1 = Resp.ok 200 l →
        ∀ r ∈ l, r.badge = getTaskBadge now r.due_date r.status ∧
          ∃ t ∈ db.tasks, t.assignee_id = some uid ∧ r = shapeTaskMe now db t) := by
  refine ⟨⟨?_, ?_⟩, ⟨?_, ?_⟩, ?_, ?_, ⟨rfl, ?_⟩⟩
  · unfold getTasks
    split
    · rfl
    · rfl
  · intro l hl
    unfold getTasks at hl
    split at hl
    · simp at hl
    · have hl' : (sortByCreatedDesc (db.tasks.filter (matchesQuery q))).map
          (shapeTask now db) = l := by
        injection hl
      subst hl'
      constructor
      · intro r hr
        rcases List.mem_map.1 hr with ⟨t, htm, rfl⟩
        rcases List.mem_filter.1 (mem_sortByCreatedDesc.1 htm) with ⟨htdb, hmq⟩
        refine ⟨rfl, ?_, t, htdb, hmq, rfl⟩
        intro s hqs
        simp only [matchesQuery, hqs, Bool.and_eq_true] at hmq
        exact eq_of_beq hmq.2
      · intro t htdb hmq
        exact List.mem_map.2 ⟨t, mem_sortByCreatedDesc.2 (List.mem_filter.2 ⟨htdb, hmq⟩), rfl⟩
  · unfold getTaskById
    split
    · rfl
    · split
      · rfl
      · rfl
  · intro r hr
    unfold getTaskById at hr
    split at hr
    · simp at hr
    · split at hr
      · simp at hr
      · next t heq =>
        have hr' : shapeTask now db t = r := by injection hr
        subst hr'
        exact ⟨rfl, t, List.mem_of_find?_eq_some heq, rfl⟩
  · intro code r hok
    rcases postTasks_cases now db cb with h | h | ⟨-, h⟩
    · rw [h] at hok; simp at hok
    · rw [h] at hok; simp at hok
    · rw [h] at hok
      rw [h]
      have hr : shapeTask now (dbAfterInsert now db cb) (postedTask now db cb) = r := by
        injection hok with h1 h2
      subst hr
      refine ⟨rfl, postedTask now db cb, ?_, rfl⟩
      exact List.mem_append.2 (Or.inr (List.mem_singleton.2 rfl))
  · intro code r hok
    rcases putTask_cases now db tid ub with h | h | h | h | ⟨t, ht, h⟩
    · rw [h] at hok; simp at hok
    · rw [h] at hok; simp at hok
    · rw [h] at hok; simp at hok
    · rw [h] at hok; simp at hok
    · rw [h] at hok
      rw [h]
      have hr : shapeTask now (dbAfterUpdate now db tid ub) (applyUpdate now ub t) = r := by
        injection hok with h1 h2
      subst hr
      refine ⟨rfl, applyUpdate now ub t, ?_, rfl⟩
      refine List.mem_map.2 ⟨t, List.mem_of_find?_eq_some ht, ?_⟩
      rw [if_pos (List.find?_some ht)]
  · intro l hl
    have hl' : (sortByCreatedDesc
        (db.tasks.filter (fun t => t.assignee_id == some uid))).map
          (shapeTaskMe now db) = l := by
      injection hl
    subst hl'
    intro r hr
    rcases List.mem_map.1 hr with ⟨t, htm, rfl⟩
    rcases List.mem_filter.1 (mem_sortByCreatedDesc.1 htm) with ⟨htdb, hmq⟩
    exact ⟨rfl, t, htdb, eq_of_beq hmq, rfl⟩

/-- The query string status=Backlog of GET /api/tasks. -/
def sampleQuery : TaskQuery := TaskQuery.mk none none (some "Backlog")

theorem c3_badge_on_every_read_witness :
    (getTasks 7 sampleDB sampleQuery).2 = sampleDB ∧
    (shapeTask 7 sampleDB sampleTask).badge =
      getTaskBadge 7 (shapeTask 7 sampleDB sampleTask).due_date
        (shapeTask 7 sampleDB sampleTask).status ∧
    (shapeTask 7 sampleDB sampleTask).status = "Backlog" ∧
    (shapeTask 7 sampleDBAfterPost samplePostedTask).badge =
      getTaskBadge 7 (shapeTask 7 sampleDBAfterPost samplePostedTask).due_date
        (shapeTask 7 sampleDBAfterPost samplePostedTask).status ∧
    (getMyTasks 7 sampleDB 1).2 = sampleDB ∧
    (shapeTaskMe 7 sampleDB sampleTask).badge =
      getTaskBadge 7 (shapeTaskMe 7 sampleDB sampleTask).due_date
        (shapeTaskMe 7 sampleDB sampleTask).status := by
  have h := c3_badge_on_every_read 7 sampleDB sampleQuery 1 1
    sampleCreateBody sampleUpdateBody
  have hga := h.1.2 [shapeTask 7 sampleDB sampleTask] rfl
  have hr := hga.1 (shapeTask 7 sampleDB sampleTask) (List.mem_singleton.2 rfl)
  have hpost := h.2.2.1 201 (shapeTask 7 sampleDBAfterPost samplePostedTask) rfl
  have hme := h.2.2.2.2.2 [shapeTaskMe 7 sampleDB sampleTask] rfl
    (shapeTaskMe 7 sampleDB sampleTask) (List.mem_singleton.2 rfl)
  exact ⟨h.1.1, hr.1, hr.2.1 "Backlog" rfl, hpost.1, h.2.2.2.2.1, hme.1⟩

/-- C10: the badge function defined in the tasks router and its textual
duplicate defined inside the GET /users/me/tasks handler compute the same
result for every (dueDate, status) pair evaluated at the same current
time. -/
theorem c10_badge_copies_agree (now : Int) (dueDate : Option Int) (status : String) :
    getTaskBadge now dueDate status = getTaskBadgeMe now dueDate status := rfl

end TaskBoard
